import Mathlib

/-!
Verification of the ChromeOS Wilco Embedded Controller mailbox protocol.

The repository provides the interface header
`include/linux/platform_data/wilco-ec.h` (flag constants, packed wire
structures `wilco_ec_request` / `wilco_ec_response`, the message type enum,
the `wilco_ec_message` logical message and the `wilco_ec_mailbox` entry
point).  The implementation file of `wilco_ec_mailbox` is not part of the
sources at hand, so its behaviour is modelled from the design document
(request building, checksumming, size validation, response trimming and the
locking discipline); every such definition is marked `Modelled from the
spec:`.  Structure layouts, flag values and the message-type codes are
embedded directly from the header.

Machine integers are modelled as `Nat` with explicit `% 256` at the points
where the code stores into a `u8`, and `u16` fields are serialised little
endian as two bytes.
-/

namespace WilcoEC

/-- `BIT(n)` from the Linux headers. -/
def BIT (n : Nat) : Nat := 2 ^ n

/-- `WILCO_EC_FLAG_NO_RESPONSE`: the EC does not respond. -/
def WILCO_EC_FLAG_NO_RESPONSE : Nat := BIT 0

/-- `WILCO_EC_FLAG_EXTENDED_DATA`: the EC returns 256 data bytes. -/
def WILCO_EC_FLAG_EXTENDED_DATA : Nat := BIT 1

/-- `WILCO_EC_FLAG_RAW_REQUEST`: do not trim request data. -/
def WILCO_EC_FLAG_RAW_REQUEST : Nat := BIT 2

/-- `WILCO_EC_FLAG_RAW_RESPONSE`: do not trim response data. -/
def WILCO_EC_FLAG_RAW_RESPONSE : Nat := BIT 3

/-- `WILCO_EC_FLAG_RAW = WILCO_EC_FLAG_RAW_REQUEST | WILCO_EC_FLAG_RAW_RESPONSE`. -/
def WILCO_EC_FLAG_RAW : Nat := WILCO_EC_FLAG_RAW_REQUEST ||| WILCO_EC_FLAG_RAW_RESPONSE

/-- Normal commands have a maximum 32 bytes of data. -/
def EC_MAILBOX_DATA_SIZE : Nat := 32

/-- Extended commands have 256 bytes of response data. -/
def EC_MAILBOX_DATA_SIZE_EXTENDED : Nat := 256

/-- `enum wilco_ec_msg_type` values from the header. -/
def WILCO_EC_MSG_LEGACY : Nat := 0x00f0

def WILCO_EC_MSG_PROPERTY : Nat := 0x00f2

def WILCO_EC_MSG_TELEMETRY_SHORT : Nat := 0x00f5

def WILCO_EC_MSG_TELEMETRY_LONG : Nat := 0x00f6

/-- Little-endian serialisation of a `u16` field as two bytes. -/
def u16le (v : Nat) : List Nat := [v % 256, v / 256 % 256]

/-- `struct wilco_ec_request`, the packed mailbox request header. -/
structure wilco_ec_request where
  struct_version : Nat
  checksum : Nat
  mailbox_id : Nat
  mailbox_version : Nat
  reserved : Nat
  data_size : Nat
  command : Nat
  reserved_raw : Nat
deriving DecidableEq

/-- Wire bytes of the packed request header, in declaration order, `u16`
fields little endian. -/
def wilco_ec_request.bytes (r : wilco_ec_request) : List Nat :=
  [r.struct_version % 256, r.checksum % 256] ++ u16le r.mailbox_id ++
    [r.mailbox_version % 256, r.reserved % 256] ++ u16le r.data_size ++
    [r.command % 256, r.reserved_raw % 256]

/-- Modelled from the spec: the request checksum of `wilco_ec_mailbox`
(implementation file absent from the sources), computed as
`0x100 - (sum of all other bytes mod 256)` truncated to one byte. -/
def wilco_ec_checksum (bs : List Nat) : Nat :=
  (0x100 - bs.sum % 256) % 256

/-- Modelled from the spec: request-header population by `wilco_ec_mailbox`
(implementation file absent).  `struct_version` is the protocol version
constant `pv`, `mailbox_version` the interface version constant `mv`,
`data_size` is payload length plus the last two header bytes, reserved
fields are zero, and the checksum makes the full frame sum to 0 mod 256. -/
def fill_request_header (pv mv ty cmd : Nat) (payload : List Nat) :
    wilco_ec_request :=
  let rq0 : wilco_ec_request :=
    { struct_version := pv
      checksum := 0
      mailbox_id := ty
      mailbox_version := mv
      reserved := 0
      data_size := payload.length + 2
      command := cmd
      reserved_raw := 0 }
  { rq0 with checksum := wilco_ec_checksum (rq0.bytes ++ payload.map (· % 256)) }

/-- Modelled from the spec: the full request frame written to the backend,
header followed by the payload bytes. -/
def request_frame (pv mv ty cmd : Nat) (payload : List Nat) : List Nat :=
  (fill_request_header pv mv ty cmd payload).bytes ++ payload.map (· % 256)

/-- `struct wilco_ec_response`, the packed mailbox response header followed
by its trailing data.  The two reserved bytes are kept as separate fields;
`data` models the flexible array member. -/
structure wilco_ec_response where
  struct_version : Nat
  checksum : Nat
  result : Nat
  data_size : Nat
  reserved0 : Nat
  reserved1 : Nat
  mbox0 : Nat
  data : List Nat
deriving DecidableEq

/-- Wire bytes of the fixed part of `struct wilco_ec_response` (everything
up to and including `mbox0`, i.e. everything before the flexible `data`
member), in declaration order, `u16` fields little endian. -/
def wilco_ec_response.header_bytes (r : wilco_ec_response) : List Nat :=
  [r.struct_version % 256, r.checksum % 256] ++ u16le r.result ++
    u16le r.data_size ++ [r.reserved0 % 256, r.reserved1 % 256, r.mbox0 % 256]

/-- Wire bytes of a whole response frame: fixed part then data. -/
def wilco_ec_response.bytes (r : wilco_ec_response) : List Nat :=
  r.header_bytes ++ r.data.map (· % 256)

/-- `sizeof(struct wilco_ec_response)`: number of bytes of the packed
struct before the flexible `data` member. -/
def sizeof_wilco_ec_response : Nat := 9

/-- `struct wilco_ec_message`, the logical caller-facing message.  The
request buffer is a byte list (its length plays the role of
`request_size`); `response_size` is the number of bytes the caller expects
from the EC. -/
structure wilco_ec_message where
  type : Nat
  flags : Nat
  command : Nat
  request_data : List Nat
  response_size : Nat
deriving DecidableEq

/-- Flag test `flags & mask`, as the C code uses it: true iff nonzero. -/
def hasFlag (flags mask : Nat) : Bool := flags &&& mask != 0

def wilco_ec_message.no_response (m : wilco_ec_message) : Bool :=
  hasFlag m.flags WILCO_EC_FLAG_NO_RESPONSE

def wilco_ec_message.extended_data (m : wilco_ec_message) : Bool :=
  hasFlag m.flags WILCO_EC_FLAG_EXTENDED_DATA

def wilco_ec_message.raw_request (m : wilco_ec_message) : Bool :=
  hasFlag m.flags WILCO_EC_FLAG_RAW_REQUEST

def wilco_ec_message.raw_response (m : wilco_ec_message) : Bool :=
  hasFlag m.flags WILCO_EC_FLAG_RAW_RESPONSE

/-- Modelled from the spec: the response-capacity cap selected by the
extended-data flag (256 for extended commands, 32 otherwise). -/
def wilco_ec_message.max_response_size (m : wilco_ec_message) : Nat :=
  if m.extended_data then EC_MAILBOX_DATA_SIZE_EXTENDED else EC_MAILBOX_DATA_SIZE

/-- Modelled from the spec: the size/flag validation `wilco_ec_mailbox`
performs before any backend I/O (implementation file absent).  A message is
rejected when its declared response capacity exceeds the cap selected by
the extended-data flag, when the extended-data flag is combined with a
buffer sized for a normal response, or when a non-raw request payload
exceeds the normal 32-byte cap. -/
def wilco_ec_message.size_check (m : wilco_ec_message) : Bool :=
  decide (m.response_size ≤ m.max_response_size) &&
    (!m.extended_data || decide (EC_MAILBOX_DATA_SIZE < m.response_size)) &&
    (m.raw_request || decide (m.request_data.length ≤ EC_MAILBOX_DATA_SIZE))

/-- The opaque I/O backend of the spec's backend contract: whether the
`execute` trigger reports success, and the bytes produced by
`read_data_block`. -/
structure Backend where
  execOk : Bool
  read : Nat → List Nat

/-- `read_data_block n` as the hardware behaves: exactly `n` bytes come
back (missing bytes read as zero) and every byte is in 0..255. -/
def Backend.readExact (b : Backend) (n : Nat) : List Nat :=
  ((b.read n).map (· % 256) ++ List.replicate n 0).take n

/-- One call at the backend boundary, recorded in order. -/
inductive BackendOp where
  | writeBlock (bytes : List Nat)
  | execute
  | readBlock (len : Nat)
deriving DecidableEq

/-- Failure modes of an exchange that yield no payload. -/
inductive MailboxError where
  | sizeMismatch
  | transport
  | checksumMismatch
deriving DecidableEq

/-- Successful outcome of `wilco_ec_mailbox`: the EC result code stored
into `msg->result`, the payload bytes copied to the caller, and the
returned byte count. -/
structure MailboxOk where
  result : Nat
  data : List Nat
  ret : Nat
deriving DecidableEq

/-- `result` field of a received response frame (`u16` at offset 2,
little endian). -/
def frame_result (frame : List Nat) : Nat :=
  frame.getD 2 0 + 256 * frame.getD 3 0

/-- `data_size` field of a received response frame (`u16` at offset 4,
little endian). -/
def frame_data_size (frame : List Nat) : Nat :=
  frame.getD 4 0 + 256 * frame.getD 5 0

/-- Modelled from the spec: the response trimming of `wilco_ec_mailbox`
(implementation file absent).  The EC data region of a received frame
starts at the `mbox0` byte (offset `sizeof(struct wilco_ec_response) - 1`).
With the raw-response flag the region is returned byte-for-byte; otherwise
the leading `mbox0` filler byte is stripped and the payload is cut to
`min response_size (data_size - 1)` bytes. -/
def trim_response (msg : wilco_ec_message) (raw : List Nat) : List Nat :=
  if msg.raw_response then raw.drop (sizeof_wilco_ec_response - 1)
  else (raw.drop sizeof_wilco_ec_response).take
    (min msg.response_size (frame_data_size raw - 1))

/-- Modelled from the spec: `wilco_ec_mailbox` (implementation file absent
from the sources).  Validates sizes and flags before any I/O, builds and
writes the request frame, triggers execution, and — unless the no-response
flag is set — reads back `sizeof(struct wilco_ec_response) + response_size`
bytes, validates the checksum (full frame sum must be 0 mod 256), records
the EC result code, trims the payload and returns the byte count read.
Returns the outcome together with the trace of backend calls made. -/
def wilco_ec_mailbox (pv mv : Nat) (ec : Backend) (msg : wilco_ec_message) :
    Except MailboxError MailboxOk × List BackendOp :=
  if !msg.size_check then (.error .sizeMismatch, [])
  else
    let frame := request_frame pv mv msg.type msg.command msg.request_data
    let ops0 := [BackendOp.writeBlock frame, BackendOp.execute]
    if !ec.execOk then (.error .transport, ops0)
    else if msg.no_response then (.ok ⟨0, [], 0⟩, ops0)
    else
      let n := sizeof_wilco_ec_response + msg.response_size
      let raw := ec.readExact n
      let ops := ops0 ++ [BackendOp.readBlock n]
      if raw.sum % 256 != 0 then (.error .checksumMismatch, ops)
      else
        let out := trim_response msg raw
        (.ok ⟨frame_result raw, out, out.length⟩, ops)

/-!
Concurrency model for the mailbox channel.  The header declares
`mailbox_lock`, a mutex "to ensure one mailbox command at a time"; the
locking code itself lives in the absent implementation file, so the
discipline is modelled from the spec: each caller acquires the lock,
performs its backend calls (frame write, execute trigger, response read)
and releases the lock.  Threads are identified by naturals; `Sys.pc t`
is thread `t`'s position in its current exchange. -/

/-- Observable events of the concurrent system.  `writeFrame`, `execute`
and `readFrame` are the backend-boundary calls of one exchange. -/
inductive Ev where
  | acquire (t : Nat)
  | writeFrame (t : Nat)
  | execute (t : Nat)
  | readFrame (t : Nat)
  | release (t : Nat)
deriving DecidableEq

/-- The thread performing an event. -/
def Ev.tid : Ev → Nat
  | .acquire t => t
  | .writeFrame t => t
  | .execute t => t
  | .readFrame t => t
  | .release t => t

/-- Whether an event is a call at the backend boundary. -/
def Ev.isBackend : Ev → Bool
  | .writeFrame _ => true
  | .execute _ => true
  | .readFrame _ => true
  | _ => false

/-- Shared state: the owner of `mailbox_lock` (if held) and each thread's
program counter: 0 idle, 1 lock held, 2 frame written, 3 executed,
4 response read. -/
structure Sys where
  owner : Option Nat
  pc : Nat → Nat

/-- Initial state: lock free, every thread idle. -/
def Sys.init : Sys := ⟨none, fun _ => 0⟩

/-- Pointwise update of the program-counter map. -/
def setPc (f : Nat → Nat) (t v : Nat) : Nat → Nat :=
  fun u => if u = t then v else f u

/-- Modelled from the spec: one step of a caller of `wilco_ec_mailbox`
(locking code absent from the sources).  A thread acquires the free lock,
then performs its three backend calls in order, then releases the lock and
returns to idle. -/
inductive Step : Sys → Ev → Sys → Prop where
  | acquire (s : Sys) (t : Nat) : s.pc t = 0 → s.owner = none →
      Step s (.acquire t) ⟨some t, setPc s.pc t 1⟩
  | writeFrame (s : Sys) (t : Nat) : s.pc t = 1 →
      Step s (.writeFrame t) ⟨s.owner, setPc s.pc t 2⟩
  | execute (s : Sys) (t : Nat) : s.pc t = 2 →
      Step s (.execute t) ⟨s.owner, setPc s.pc t 3⟩
  | readFrame (s : Sys) (t : Nat) : s.pc t = 3 →
      Step s (.readFrame t) ⟨s.owner, setPc s.pc t 4⟩
  | release (s : Sys) (t : Nat) : s.pc t = 4 →
      Step s (.release t) ⟨none, setPc s.pc t 0⟩

/-- Reflexive-transitive closure of `Step` along a recorded event trace. -/
inductive Steps : Sys → List Ev → Sys → Prop where
  | nil (s : Sys) : Steps s [] s
  | cons {s : Sys} {e : Ev} {s1 : Sys} {tr : List Ev} {s2 : Sys} :
      Step s e s1 → Steps s1 tr s2 → Steps s (e :: tr) s2

/-- Lock invariant: any thread inside an exchange holds the lock. -/
def Inv (s : Sys) : Prop := ∀ t, 1 ≤ s.pc t → s.owner = some t

/-! Helper lemmas about the request frame. -/

lemma request_frame_sum (pv mv ty cmd : Nat) (payload : List Nat) :
    (request_frame pv mv ty cmd payload).sum % 256 = 0 := by
  simp only [request_frame, fill_request_header, wilco_ec_request.bytes,
    wilco_ec_checksum, u16le, List.sum_append, List.sum_cons, List.sum_nil]
  omega

lemma request_frame_checksum (pv mv ty cmd : Nat) (payload : List Nat) :
    (fill_request_header pv mv ty cmd payload).checksum =
      (0x100 - ((request_frame pv mv ty cmd payload).sum -
        (fill_request_header pv mv ty cmd payload).checksum) % 256) % 256 := by
  simp only [request_frame, fill_request_header, wilco_ec_request.bytes,
    wilco_ec_checksum, u16le, List.sum_append, List.sum_cons, List.sum_nil]
  omega

lemma readExact_length (b : Backend) (n : Nat) : (b.readExact n).length = n := by
  simp [Backend.readExact]

/-! Helper lemmas about flag bits. -/

lemma ne_zero_of_testBit {x : Nat} (i : Nat) (h : x.testBit i = true) : x ≠ 0 := by
  intro h0
  rw [h0, Nat.zero_testBit] at h
  exact Bool.false_ne_true h

lemma hasFlag_of_testBit {x mask : Nat} (i : Nat) (hx : x.testBit i = true)
    (hm : mask.testBit i = true) : hasFlag x mask = true := by
  have hb : (x &&& mask).testBit i = true := by
    rw [Nat.testBit_and, hx, hm]
    rfl
  simp only [hasFlag, bne_iff_ne, ne_eq]
  exact ne_zero_of_testBit i hb

lemma testBit_or_raw (f : Nat) (i : Nat) (h : WILCO_EC_FLAG_RAW.testBit i = true) :
    (f ||| WILCO_EC_FLAG_RAW).testBit i = true := by
  rw [Nat.testBit_or, h, Bool.or_true]

/-! Helper lemmas for the concurrency model. -/

lemma step_inv {s : Sys} {e : Ev} {s2 : Sys} (hs : Step s e s2) (hi : Inv s) :
    Inv s2 := by
  cases hs with
  | acquire t h0 how =>
      intro u hu
      simp only [setPc] at hu
      by_cases hut : u = t
      · simp [hut]
      · simp only [hut, if_false] at hu
        exact absurd (hi u hu) (by simp [how])
  | writeFrame t h0 =>
      intro u hu
      simp only [setPc] at hu ⊢
      by_cases hut : u = t
      · subst hut; exact hi u (by omega)
      · simp only [hut, if_false] at hu
        exact hi u hu
  | execute t h0 =>
      intro u hu
      simp only [setPc] at hu ⊢
      by_cases hut : u = t
      · subst hut; exact hi u (by omega)
      · simp only [hut, if_false] at hu
        exact hi u hu
  | readFrame t h0 =>
      intro u hu
      simp only [setPc] at hu ⊢
      by_cases hut : u = t
      · subst hut; exact hi u (by omega)
      · simp only [hut, if_false] at hu
        exact hi u hu
  | release t h0 =>
      intro u hu
      simp only [setPc] at hu
      by_cases hut : u = t
      · simp [hut] at hu
      · simp only [hut, if_false] at hu
        have h1 := hi u hu
        have h2 := hi t (by omega)
        rw [h2] at h1
        exact absurd (Option.some.inj h1) (Ne.symm hut)

lemma steps_inv {s : Sys} {tr : List Ev} {s2 : Sys} (hs : Steps s tr s2)
    (hi : Inv s) : Inv s2 := by
  induction hs with
  | nil s => exact hi
  | cons h1 _ ih => exact ih (step_inv h1 hi)

lemma steps_append {s : Sys} {l1 l2 : List Ev} {s2 : Sys}
    (h : Steps s (l1 ++ l2) s2) : ∃ s1, Steps s l1 s1 ∧ Steps s1 l2 s2 := by
  induction l1 generalizing s with
  | nil => exact ⟨s, Steps.nil s, h⟩
  | cons e l1 ih =>
      cases h with
      | cons h1 h2 =>
          obtain ⟨s1, ha, hb⟩ := ih h2
          exact ⟨s1, Steps.cons h1 ha, hb⟩

lemma backend_owner {s : Sys} {e : Ev} {s2 : Sys} (hs : Step s e s2)
    (hb : e.isBackend = true) (hi : Inv s) : s.owner = some e.tid := by
  cases hs with
  | acquire t h0 how => simp [Ev.isBackend] at hb
  | writeFrame t h0 => exact hi t (by omega)
  | execute t h0 => exact hi t (by omega)
  | readFrame t h0 => exact hi t (by omega)
  | release t h0 => simp [Ev.isBackend] at hb

lemma backend_owner_unchanged {s : Sys} {e : Ev} {s2 : Sys} (hs : Step s e s2)
    (hb : e.isBackend = true) : s2.owner = s.owner := by
  cases hs with
  | acquire t h0 how => simp [Ev.isBackend] at hb
  | writeFrame t h0 => rfl
  | execute t h0 => rfl
  | readFrame t h0 => rfl
  | release t h0 => simp [Ev.isBackend] at hb

lemma locked_run {s : Sys} {tr : List Ev} {s2 : Sys} {t : Nat}
    (hs : Steps s tr s2) (hi : Inv s) (how : s.owner = some t)
    (hrel : Ev.release t ∉ tr) :
    ∀ e ∈ tr, e.isBackend = true → e.tid = t := by
  induction hs with
  | nil s => intro e he; exact absurd he (List.not_mem_nil e)
  | cons h1 h2 ih =>
      rename_i s e s1 tr s2
      have hrel2 : Ev.release t ∉ tr := fun hm => hrel (List.mem_cons_of_mem _ hm)
      have hnext : s1.owner = some t := by
        cases h1 with
        | acquire u h0 hw => rw [hw] at how; exact absurd how (by simp)
        | writeFrame u h0 => exact how
        | execute u h0 => exact how
        | readFrame u h0 => exact how
        | release u h0 =>
            have hu := hi u (by omega)
            rw [how] at hu
            have : u = t := (Option.some.inj hu).symm
            subst this
            exact absurd (List.mem_cons_self _ _) hrel
      intro e2 he2 hb2
      rcases List.mem_cons.mp he2 with he2 | he2
      · subst he2
        have := backend_owner h1 hb2 hi
        rw [how] at this
        exact (Option.some.inj this).symm
      · exact ih (step_inv h1 hi) hnext hrel2 e2 he2 hb2

lemma inv_init : Inv Sys.init := by
  intro t ht
  simp [Sys.init] at ht

/-! The claims. -/

/-- C1: for every request frame built from a payload of at most 32 bytes,
the checksum byte equals `0x100` minus the sum of all other frame bytes
mod 256, truncated to one byte, and consequently the sum of all bytes of
the built frame is congruent to 0 mod 256. -/
theorem C1_request_checksum (pv mv ty cmd : Nat) (payload : List Nat)
    (hlen : payload.length ≤ 32) :
    (fill_request_header pv mv ty cmd payload).checksum =
      (0x100 - ((request_frame pv mv ty cmd payload).sum -
        (fill_request_header pv mv ty cmd payload).checksum) % 256) % 256 ∧
    (request_frame pv mv ty cmd payload).sum % 256 = 0 :=
  ⟨request_frame_checksum pv mv ty cmd payload,
   request_frame_sum pv mv ty cmd payload⟩

theorem C1_request_checksum_witness :
    ([(0x10 : Nat), 0x20].length ≤ 32) ∧
    ((fill_request_header 3 0 WILCO_EC_MSG_LEGACY 1 [0x10, 0x20]).checksum =
      (0x100 - ((request_frame 3 0 WILCO_EC_MSG_LEGACY 1 [0x10, 0x20]).sum -
        (fill_request_header 3 0 WILCO_EC_MSG_LEGACY 1 [0x10, 0x20]).checksum) % 256) % 256 ∧
    (request_frame 3 0 WILCO_EC_MSG_LEGACY 1 [0x10, 0x20]).sum % 256 = 0) :=
  ⟨by decide, C1_request_checksum 3 0 WILCO_EC_MSG_LEGACY 1 [0x10, 0x20] (by decide)⟩

/-- C3: for every request frame built from a payload `P`, the `data_size`
field of the request header equals `len(P) + 2`, and bytes 6 and 7 of the
built frame carry that value little endian. -/
theorem C3_data_size (pv mv ty cmd : Nat) (payload : List Nat) :
    (fill_request_header pv mv ty cmd payload).data_size = payload.length + 2 ∧
    ((request_frame pv mv ty cmd payload).drop 6).take 2 =
      u16le (payload.length + 2) := by
  refine ⟨rfl, ?_⟩
  simp [request_frame, fill_request_header, wilco_ec_request.bytes, u16le]

/-- C8: the message `{type = LEGACY, command = 0x01, flags = 0,
payload = [0x10, 0x20]}` is built into the frame
`[struct_version, checksum, 0xf0, 0x00, mailbox_version, 0x00, 0x04, 0x00,
0x01, 0x00, 0x10, 0x20]` (mailbox_id `0x00f0` and `data_size = 4` little
endian), where the checksum byte makes the full frame sum congruent to 0
mod 256. -/
theorem C8_legacy_scenario (pv mv : Nat) (hpv : pv < 256) (hmv : mv < 256) :
    ∃ X,
      request_frame pv mv WILCO_EC_MSG_LEGACY 0x01 [0x10, 0x20] =
        [pv, X, 0xf0, 0x00, mv, 0x00, 0x04, 0x00, 0x01, 0x00, 0x10, 0x20] ∧
      (request_frame pv mv WILCO_EC_MSG_LEGACY 0x01 [0x10, 0x20]).sum % 256 = 0 := by
  refine ⟨(fill_request_header pv mv WILCO_EC_MSG_LEGACY 0x01 [0x10, 0x20]).checksum,
    ?_, request_frame_sum pv mv WILCO_EC_MSG_LEGACY 0x01 [0x10, 0x20]⟩
  simp [request_frame, fill_request_header, wilco_ec_request.bytes, u16le,
    wilco_ec_checksum, WILCO_EC_MSG_LEGACY, Nat.mod_eq_of_lt hpv,
    Nat.mod_eq_of_lt hmv, Nat.mod_mod_of_dvd]

theorem C8_legacy_scenario_witness :
    ((3 : Nat) < 256 ∧ (0 : Nat) < 256) ∧
    (∃ X,
      request_frame 3 0 WILCO_EC_MSG_LEGACY 0x01 [0x10, 0x20] =
        [3, X, 0xf0, 0x00, 0, 0x00, 0x04, 0x00, 0x01, 0x00, 0x10, 0x20] ∧
      (request_frame 3 0 WILCO_EC_MSG_LEGACY 0x01 [0x10, 0x20]).sum % 256 = 0) :=
  ⟨by decide, C8_legacy_scenario 3 0 (by decide) (by decide)⟩

/-- C9 counterexample: the fixed part of `struct wilco_ec_response`
(struct_version, checksum, result, data_size, reserved, mbox0) is not 8
bytes long — the listed fields occupy 9 bytes. -/
theorem C9_counterexample :
    ¬ (wilco_ec_response.header_bytes ⟨0, 0, 0, 0, 0, 0, 0, []⟩).length = 8 := by
  decide

/-- C9 (amended): the fixed header preceding the response payload —
struct_version (1), checksum (1), result (2), data_size (2), reserved (2)
and the always-zero `mbox0` filler byte (1) — is 9 bytes long, equal to
`sizeof(struct wilco_ec_response)`, and the response payload begins
immediately after these 9 bytes. -/
theorem C9_response_header_layout (r : wilco_ec_response) :
    r.header_bytes.length = sizeof_wilco_ec_response ∧
    sizeof_wilco_ec_response = 9 ∧
    r.bytes.drop sizeof_wilco_ec_response = r.data.map (· % 256) := by
  refine ⟨?_, rfl, ?_⟩
  · simp [wilco_ec_response.header_bytes, u16le, sizeof_wilco_ec_response]
  · simp [wilco_ec_response.bytes, wilco_ec_response.header_bytes, u16le,
      sizeof_wilco_ec_response]

lemma mailbox_read_ok (pv mv : Nat) (ec : Backend) (msg : wilco_ec_message)
    (hsz : msg.size_check = true) (hex : ec.execOk = true)
    (hnr : msg.no_response = false)
    (hck : (ec.readExact (sizeof_wilco_ec_response + msg.response_size)).sum % 256 = 0) :
    wilco_ec_mailbox pv mv ec msg =
      (Except.ok
        ⟨frame_result (ec.readExact (sizeof_wilco_ec_response + msg.response_size)),
         trim_response msg (ec.readExact (sizeof_wilco_ec_response + msg.response_size)),
         (trim_response msg
           (ec.readExact (sizeof_wilco_ec_response + msg.response_size))).length⟩,
       [BackendOp.writeBlock (request_frame pv mv msg.type msg.command msg.request_data),
        BackendOp.execute,
        BackendOp.readBlock (sizeof_wilco_ec_response + msg.response_size)]) := by
  simp [wilco_ec_mailbox, hsz, hex, hnr, hck]

/-- C4: for a successfully received response, without the raw-response
flag the returned payload has length
`min response_size (data_size - 1)` and is the EC data region with the
leading mbox0 filler byte removed; with the raw-response flag the returned
bytes are the EC data region byte-for-byte, with no trimming. -/
theorem C4_response_trim (pv mv : Nat) (ec : Backend) (msg : wilco_ec_message)
    (hsz : msg.size_check = true) (hex : ec.execOk = true)
    (hnr : msg.no_response = false)
    (hck : (ec.readExact (sizeof_wilco_ec_response + msg.response_size)).sum % 256 = 0) :
    (wilco_ec_mailbox pv mv ec msg).1 =
      Except.ok
        ⟨frame_result (ec.readExact (sizeof_wilco_ec_response + msg.response_size)),
         trim_response msg (ec.readExact (sizeof_wilco_ec_response + msg.response_size)),
         (trim_response msg
           (ec.readExact (sizeof_wilco_ec_response + msg.response_size))).length⟩ ∧
    (msg.raw_response = false →
      (trim_response msg (ec.readExact (sizeof_wilco_ec_response + msg.response_size))).length =
        min msg.response_size
          (frame_data_size (ec.readExact (sizeof_wilco_ec_response + msg.response_size)) - 1) ∧
      trim_response msg (ec.readExact (sizeof_wilco_ec_response + msg.response_size)) =
        (((ec.readExact (sizeof_wilco_ec_response + msg.response_size)).drop 8).drop 1).take
          (min msg.response_size
            (frame_data_size (ec.readExact (sizeof_wilco_ec_response + msg.response_size)) - 1))) ∧
    (msg.raw_response = true →
      trim_response msg (ec.readExact (sizeof_wilco_ec_response + msg.response_size)) =
        (ec.readExact (sizeof_wilco_ec_response + msg.response_size)).drop 8) := by
  refine ⟨by rw [mailbox_read_ok pv mv ec msg hsz hex hnr hck], ?_, ?_⟩
  · intro hraw
    have hdd : ((ec.readExact (sizeof_wilco_ec_response + msg.response_size)).drop 8).drop 1 =
        (ec.readExact (sizeof_wilco_ec_response + msg.response_size)).drop 9 := by
      rw [List.drop_drop]
    refine ⟨?_, by simp [trim_response, hraw, sizeof_wilco_ec_response, hdd]⟩
    have hlen := readExact_length ec (sizeof_wilco_ec_response + msg.response_size)
    simp only [trim_response, hraw, Bool.false_eq_true, if_false,
      sizeof_wilco_ec_response, List.length_take, List.length_drop, hlen]
    simp only [sizeof_wilco_ec_response] at hlen
    omega
  · intro hraw
    simp [trim_response, hraw, sizeof_wilco_ec_response]

theorem C4_response_trim_witness :
    (wilco_ec_mailbox 0 0 ⟨true, fun _ => [0, 151, 1, 0, 3, 0, 0, 0, 0, 0xAA, 0xBB]⟩
        ⟨WILCO_EC_MSG_LEGACY, 0, 1, [], 32⟩).1 =
      Except.ok
        ⟨frame_result ((⟨true, fun _ => [0, 151, 1, 0, 3, 0, 0, 0, 0, 0xAA, 0xBB]⟩ :
            Backend).readExact (sizeof_wilco_ec_response + 32)),
         trim_response ⟨WILCO_EC_MSG_LEGACY, 0, 1, [], 32⟩
           ((⟨true, fun _ => [0, 151, 1, 0, 3, 0, 0, 0, 0, 0xAA, 0xBB]⟩ :
            Backend).readExact (sizeof_wilco_ec_response + 32)),
         (trim_response ⟨WILCO_EC_MSG_LEGACY, 0, 1, [], 32⟩
           ((⟨true, fun _ => [0, 151, 1, 0, 3, 0, 0, 0, 0, 0xAA, 0xBB]⟩ :
            Backend).readExact (sizeof_wilco_ec_response + 32))).length⟩ ∧
    (trim_response ⟨WILCO_EC_MSG_LEGACY, 0, 1, [], 32⟩
      ((⟨true, fun _ => [0, 151, 1, 0, 3, 0, 0, 0, 0, 0xAA, 0xBB]⟩ :
        Backend).readExact (sizeof_wilco_ec_response + 32)) = [0xAA, 0xBB]) :=
  ⟨(C4_response_trim 0 0 ⟨true, fun _ => [0, 151, 1, 0, 3, 0, 0, 0, 0, 0xAA, 0xBB]⟩
      ⟨WILCO_EC_MSG_LEGACY, 0, 1, [], 32⟩ (by decide) rfl (by decide) (by decide)).1,
   by decide⟩

/-- C5: a response that passes transport and checksum validation but
carries a nonzero EC result code still makes `wilco_ec_mailbox` succeed:
`msg.result` is set to that code and the returned value is the number of
payload bytes read, not an error. -/
theorem C5_nonzero_result (pv mv : Nat) (ec : Backend) (msg : wilco_ec_message)
    (hsz : msg.size_check = true) (hex : ec.execOk = true)
    (hnr : msg.no_response = false)
    (hck : (ec.readExact (sizeof_wilco_ec_response + msg.response_size)).sum % 256 = 0)
    (hres : frame_result (ec.readExact (sizeof_wilco_ec_response + msg.response_size)) ≠ 0) :
    (wilco_ec_mailbox pv mv ec msg).1 =
      Except.ok
        ⟨frame_result (ec.readExact (sizeof_wilco_ec_response + msg.response_size)),
         trim_response msg (ec.readExact (sizeof_wilco_ec_response + msg.response_size)),
         (trim_response msg
           (ec.readExact (sizeof_wilco_ec_response + msg.response_size))).length⟩ := by
  rw [mailbox_read_ok pv mv ec msg hsz hex hnr hck]

theorem C5_nonzero_result_witness :
    (wilco_ec_mailbox 0 0 ⟨true, fun _ => [0, 151, 1, 0, 3, 0, 0, 0, 0, 0xAA, 0xBB]⟩
        ⟨WILCO_EC_MSG_LEGACY, 0, 1, [], 32⟩).1 =
      Except.ok
        ⟨frame_result ((⟨true, fun _ => [0, 151, 1, 0, 3, 0, 0, 0, 0, 0xAA, 0xBB]⟩ :
            Backend).readExact (sizeof_wilco_ec_response + 32)),
         trim_response ⟨WILCO_EC_MSG_LEGACY, 0, 1, [], 32⟩
           ((⟨true, fun _ => [0, 151, 1, 0, 3, 0, 0, 0, 0, 0xAA, 0xBB]⟩ :
            Backend).readExact (sizeof_wilco_ec_response + 32)),
         (trim_response ⟨WILCO_EC_MSG_LEGACY, 0, 1, [], 32⟩
           ((⟨true, fun _ => [0, 151, 1, 0, 3, 0, 0, 0, 0, 0xAA, 0xBB]⟩ :
            Backend).readExact (sizeof_wilco_ec_response + 32))).length⟩ ∧
    (wilco_ec_mailbox 0 0 ⟨true, fun _ => [0, 151, 1, 0, 3, 0, 0, 0, 0, 0xAA, 0xBB]⟩
        ⟨WILCO_EC_MSG_LEGACY, 0, 1, [], 32⟩).1 = Except.ok ⟨1, [0xAA, 0xBB], 2⟩ :=
  ⟨C5_nonzero_result 0 0 ⟨true, fun _ => [0, 151, 1, 0, 3, 0, 0, 0, 0, 0xAA, 0xBB]⟩
      ⟨WILCO_EC_MSG_LEGACY, 0, 1, [], 32⟩ (by decide) rfl (by decide) (by decide) (by decide),
   rfl⟩

/-- C6: the extended-data flag selects a 256-byte response cap and a
normal message a 32-byte cap; a message whose declared response capacity
exceeds its cap, whose extended-data flag is combined with a buffer sized
for a normal response, or whose non-raw request payload exceeds the
32-byte cap, is rejected with a size error before any backend call. -/
theorem C6_size_validation (pv mv : Nat) (ec : Backend) (msg : wilco_ec_message)
    (h : msg.max_response_size < msg.response_size ∨
      (msg.extended_data = true ∧ msg.response_size ≤ EC_MAILBOX_DATA_SIZE) ∨
      (msg.raw_request = false ∧ EC_MAILBOX_DATA_SIZE < msg.request_data.length)) :
    wilco_ec_mailbox pv mv ec msg = (.error .sizeMismatch, []) ∧
    (msg.extended_data = true → msg.max_response_size = EC_MAILBOX_DATA_SIZE_EXTENDED) ∧
    (msg.extended_data = false → msg.max_response_size = EC_MAILBOX_DATA_SIZE) := by
  have hsc : msg.size_check = false := by
    rw [wilco_ec_message.size_check]
    rcases h with h | ⟨h1, h2⟩ | ⟨h1, h2⟩
    · have hd : decide (msg.response_size ≤ msg.max_response_size) = false :=
        decide_eq_false (Nat.not_le.mpr h)
      simp [hd]
    · have hd : decide (EC_MAILBOX_DATA_SIZE < msg.response_size) = false :=
        decide_eq_false (Nat.not_lt.mpr h2)
      simp [hd, h1]
    · have hd : decide (msg.request_data.length ≤ EC_MAILBOX_DATA_SIZE) = false :=
        decide_eq_false (Nat.not_le.mpr h2)
      simp [hd, h1]
  refine ⟨by simp [wilco_ec_mailbox, hsc], ?_, ?_⟩
  · intro hx
    simp [wilco_ec_message.max_response_size, hx]
  · intro hx
    simp [wilco_ec_message.max_response_size, hx]

theorem C6_size_validation_witness :
    wilco_ec_mailbox 0 0 ⟨true, fun _ => []⟩ ⟨0xf0, 0, 1, [], 33⟩ =
      (.error .sizeMismatch, []) ∧
    ((⟨0xf0, 0, 1, [], 33⟩ : wilco_ec_message).extended_data = true →
      (⟨0xf0, 0, 1, [], 33⟩ : wilco_ec_message).max_response_size =
        EC_MAILBOX_DATA_SIZE_EXTENDED) ∧
    ((⟨0xf0, 0, 1, [], 33⟩ : wilco_ec_message).extended_data = false →
      (⟨0xf0, 0, 1, [], 33⟩ : wilco_ec_message).max_response_size =
        EC_MAILBOX_DATA_SIZE) :=
  C6_size_validation 0 0 ⟨true, fun _ => []⟩ ⟨0xf0, 0, 1, [], 33⟩ (Or.inl (by decide))

/-- C7: a message with the no-response flag set performs no backend read:
after the frame write and the execute trigger, `wilco_ec_mailbox` returns
a zero-length result immediately and its backend trace contains no read
call. -/
theorem C7_no_response_skips_read (pv mv : Nat) (ec : Backend) (msg : wilco_ec_message)
    (hsz : msg.size_check = true) (hex : ec.execOk = true)
    (hnr : msg.no_response = true) :
    wilco_ec_mailbox pv mv ec msg =
      (Except.ok ⟨0, [], 0⟩,
        [BackendOp.writeBlock (request_frame pv mv msg.type msg.command msg.request_data),
         BackendOp.execute]) ∧
    ∀ len, BackendOp.readBlock len ∉ (wilco_ec_mailbox pv mv ec msg).2 := by
  constructor
  · simp [wilco_ec_mailbox, hsz, hex, hnr]
  · intro len
    simp [wilco_ec_mailbox, hsz, hex, hnr]

theorem C7_no_response_skips_read_witness :
    wilco_ec_mailbox 0 0 ⟨true, fun _ => []⟩ ⟨0xf0, 1, 1, [0x10], 32⟩ =
      (Except.ok ⟨0, [], 0⟩,
        [BackendOp.writeBlock (request_frame 0 0 0xf0 1 [0x10]),
         BackendOp.execute]) :=
  (C7_no_response_skips_read 0 0 ⟨true, fun _ => []⟩ ⟨0xf0, 1, 1, [0x10], 32⟩
    (by decide) rfl (by decide)).1

/-- C2: in every execution of the lock-modelled mailbox channel, the
backend calls of one exchange are never interleaved with another thread's
backend calls: between two backend events of the same exchange of thread
`t` (no release of `t` in between), every backend event belongs to `t`. -/
theorem C2_serialized_exchanges (t : Nat) (tr1 tr2 tr3 : List Ev) (e1 e2 : Ev) {s : Sys}
    (hrun : Steps Sys.init (tr1 ++ e1 :: (tr2 ++ e2 :: tr3)) s)
    (hb1 : e1.isBackend = true) (ht1 : e1.tid = t)
    (hb2 : e2.isBackend = true) (ht2 : e2.tid = t)
    (hrel : Ev.release t ∉ tr2) :
    ∀ e ∈ tr2, e.isBackend = true → e.tid = t := by
  obtain ⟨sa, hsa, hrest⟩ := steps_append hrun
  cases hrest with
  | cons hstep hrest2 =>
      have hia : Inv sa := steps_inv hsa inv_init
      have howa : sa.owner = some t := ht1 ▸ backend_owner hstep hb1 hia
      have hib := step_inv hstep hia
      have howb := (backend_owner_unchanged hstep hb1).trans howa
      obtain ⟨sc, hsc, hrest3⟩ := steps_append hrest2
      exact locked_run hsc hib howb hrel

theorem C2_serialized_exchanges_witness : Ev.tid (Ev.execute 0) = 0 := by
  have st1 : Step Sys.init (Ev.acquire 0) ⟨some 0, setPc Sys.init.pc 0 1⟩ :=
    Step.acquire Sys.init 0 rfl rfl
  have st2 : Step (⟨some 0, setPc Sys.init.pc 0 1⟩ : Sys) (Ev.writeFrame 0)
      ⟨some 0, setPc (setPc Sys.init.pc 0 1) 0 2⟩ :=
    Step.writeFrame _ 0 (by decide)
  have st3 : Step (⟨some 0, setPc (setPc Sys.init.pc 0 1) 0 2⟩ : Sys) (Ev.execute 0)
      ⟨some 0, setPc (setPc (setPc Sys.init.pc 0 1) 0 2) 0 3⟩ :=
    Step.execute _ 0 (by decide)
  have st4 : Step (⟨some 0, setPc (setPc (setPc Sys.init.pc 0 1) 0 2) 0 3⟩ : Sys)
      (Ev.readFrame 0)
      ⟨some 0, setPc (setPc (setPc (setPc Sys.init.pc 0 1) 0 2) 0 3) 0 4⟩ :=
    Step.readFrame _ 0 (by decide)
  have hsteps : Steps Sys.init
      ([Ev.acquire 0] ++ Ev.writeFrame 0 :: ([Ev.execute 0] ++ Ev.readFrame 0 :: []))
      ⟨some 0, setPc (setPc (setPc (setPc Sys.init.pc 0 1) 0 2) 0 3) 0 4⟩ :=
    Steps.cons st1 (Steps.cons st2 (Steps.cons st3 (Steps.cons st4 (Steps.nil _))))
  have h := C2_serialized_exchanges 0 [Ev.acquire 0] [Ev.execute 0] []
    (Ev.writeFrame 0) (Ev.readFrame 0) hsteps rfl rfl rfl rfl (by simp)
  exact h (Ev.execute 0) (by simp) rfl

/-- C10: the combined raw flag is the bitwise union of the raw-request
flag (bit 2) and the raw-response flag (bit 3), so any message whose flags
have the combined flag set selects both the raw-request behaviour and the
raw-response behaviour of `wilco_ec_mailbox` at the same time. -/
theorem C10_raw_flag :
    WILCO_EC_FLAG_RAW = WILCO_EC_FLAG_RAW_REQUEST ||| WILCO_EC_FLAG_RAW_RESPONSE ∧
    WILCO_EC_FLAG_RAW = BIT 2 + BIT 3 ∧
    ∀ m : wilco_ec_message,
      wilco_ec_message.raw_request { m with flags := m.flags ||| WILCO_EC_FLAG_RAW } = true ∧
      wilco_ec_message.raw_response { m with flags := m.flags ||| WILCO_EC_FLAG_RAW } = true := by
  refine ⟨rfl, by decide, fun m => ⟨?_, ?_⟩⟩
  · exact hasFlag_of_testBit 2 (testBit_or_raw m.flags 2 (by decide)) (by decide)
  · exact hasFlag_of_testBit 3 (testBit_or_raw m.flags 3 (by decide)) (by decide)

end WilcoEC
